import Mathlib

/-!
Verification of the chatroom routing / polling core of the `plugin-iq`
repository (`src/typescript/service.ts`, `src/constants.ts`).

The TypeScript service is shallowly embedded: the registry of connected
chatrooms is a `List (String × IQChatroom)` mirroring a JS `Map`
(insertion order, first-key lookup), the seen-set is a `List String`
with set-insertion semantics, and the external collaborators (HTTP
sources, the ledger SDK's `writeRow`, `nanoid`, clocks) are passed in as
explicit parameters or oracle records.

JavaScript string primitives (`toLowerCase`, `trim`, `includes`) are
modelled over the character list of a `String`.
-/

/-- Model of JS `String.prototype.toLowerCase` (ASCII range, as used by
the service on room names and refs). -/
def jsToLower (s : String) : String :=
  ⟨s.data.map Char.toLower⟩

/-- Trim whitespace on the char-list level: drop leading whitespace,
then drop trailing whitespace. -/
def jsTrimList (l : List Char) : List Char :=
  ((l.dropWhile Char.isWhitespace).reverse.dropWhile Char.isWhitespace).reverse

/-- Model of JS `String.prototype.trim`. -/
def jsTrim (s : String) : String :=
  ⟨jsTrimList s.data⟩

/-- `containsSub hs ns = true` iff `ns` occurs contiguously inside `hs`
(model of JS `String.prototype.includes` on char lists). -/
def containsSub : List Char → List Char → Bool
  | [], needle => needle.isEmpty
  | h :: t, needle => needle.isPrefixOf (h :: t) || containsSub t needle

/-- Model of JS `haystack.includes(needle)`. -/
def jsIncludes (haystack needle : String) : Bool :=
  containsSub haystack.data needle.data

-- ==================== constants.ts ====================

/-- `DB_ROOT_NAME` from `src/constants.ts`. -/
def DB_ROOT_NAME : String := "iq"

/-- `CHATROOM_PREFIX` from `src/constants.ts` (chatroom table seed namespace). -/
def CHATROOM_NS : String := "chatroom:"

/-- `DEFAULT_CHATROOM` from `src/constants.ts`. -/
def DEFAULT_CHATROOM : String := "General"

/-- `MESSAGE_LIMITS.defaultReadLimit` from `src/constants.ts`. -/
def MESSAGE_LIMITS_defaultReadLimit : Nat := 15

/-- `MESSAGE_LIMITS.maxContentLength` from `src/constants.ts`. -/
def MESSAGE_LIMITS_maxContentLength : Nat := 2000

-- ==================== data model ====================

/-- Abstraction of node's `crypto.createHash("sha256")` digest, an
external primitive: modelled as an injective tagging function (no claim
depends on hash properties, only on the value being determined by its
input). -/
def sha256 (s : String) : String := "sha256:" ++ s

/-- Abstraction of the external SDK's deterministic table-address
derivation `iqlabs.contract.getTablePda`. -/
def getTablePda (dbRootPda tableSeed programId : String) : String :=
  "pda:" ++ dbRootPda ++ "/" ++ tableSeed ++ "/" ++ programId

/-- `IQChatroom` (fields of the chatroom config built in
`ensureChatroom`): canonical name, db root id, table seed, table PDA
(empty string when the SDK is unavailable). -/
structure IQChatroom where
  name : String
  dbRootId : String
  tableSeed : String
  tablePda : String
deriving Repr, DecidableEq

/-- `IQMessage` from `src/typescript/types` (part of the repository):
id, agent display name, sender wallet address, content, timestamp, and
the optional chatroom tag set on read/send. -/
structure IQMessage where
  id : String
  agent : String
  wallet : String
  content : String
  timestamp : String
  chatroom : Option String
deriving Repr, DecidableEq

/-- The service state relevant to the routing/polling core:
`chatrooms` mirrors the JS `Map` (insertion-ordered association list
keyed by lowercased name), `seenMessages` the JS `Set`, plus the
settings and nullable handles (`connection`, `keypair`, SDK, on-chain
config) as presence flags / options. -/
structure ServiceState where
  chatrooms : List (String × IQChatroom)
  seenMessages : List String
  defaultChatroom : String
  agentName : String
  autonomousMode : Bool
  sdkAvailable : Bool
  hasConnection : Bool
  hasKeypair : Bool
  walletAddress : String
  dbRootId : Option String
  dbRootPda : Option String
  programId : Option String
deriving Repr, DecidableEq

/-- JS `Map.prototype.get`: first entry with the given key. -/
def mapGet : List (String × IQChatroom) → String → Option IQChatroom
  | [], _ => none
  | (k, v) :: rest, key => if k = key then some v else mapGet rest key

/-- JS `Set.prototype.add` on the seen-set model. -/
def addSeen (seen : List String) (id : String) : List String :=
  if id ∈ seen then seen else seen ++ [id]

/-- `getConnectedChatrooms`: names of all connected rooms in insertion
order. -/
def roomNames (s : ServiceState) : List String :=
  s.chatrooms.map (fun p => p.2.name)

-- ==================== ensureChatroom ====================

/-- The chatroom config object `ensureChatroom` builds on a miss: name
kept verbatim, table seed from the namespaced name, table address
derived only when the SDK and both PDAs are available (else empty). -/
def newChatroom (s : ServiceState) (chatroomName d : String) : IQChatroom :=
  let tableSeed := sha256 (CHATROOM_NS ++ chatroomName)
  { name := chatroomName, dbRootId := d
    tableSeed := tableSeed
    tablePda :=
      match s.sdkAvailable, s.dbRootPda, s.programId with
      | true, some dbRootPda, some programId => getTablePda dbRootPda tableSeed programId
      | _, _, _ => "" }

/-- `ensureChatroom` from `service.ts`: case-insensitive lookup keyed by
the lowercased name; if present, return the existing room unchanged; if
absent, require `dbRootId` (else the "not initialized" error), build the
new config, insert it at the end of the map, and report `true` in the
third component (the branch that logs and emits the room-connected
event). -/
def ensureChatroom (s : ServiceState) (chatroomName : String) :
    Except String (ServiceState × IQChatroom × Bool) :=
  let key := jsToLower chatroomName
  match mapGet s.chatrooms key with
  | some existing => .ok (s, existing, false)
  | none =>
    match s.dbRootId with
    | none => .error "Cannot create chatroom config - service not initialized"
    | some dbRootId =>
      let chatroom := newChatroom s chatroomName dbRootId
      .ok ({ s with chatrooms := s.chatrooms ++ [(key, chatroom)] }, chatroom, true)

-- ==================== resolveChatroom ====================

/-- First room whose key equals the normalized ref (the exact
case-insensitive pass of `resolveChatroom`). -/
def findExact : List (String × IQChatroom) → String → Option String
  | [], _ => none
  | (key, c) :: rest, refLower =>
    if key = refLower then some c.name else findExact rest refLower

/-- First room whose key contains the normalized ref or is contained in
it (the fuzzy substring pass of `resolveChatroom`). -/
def findFuzzy : List (String × IQChatroom) → String → Option String
  | [], _ => none
  | (key, c) :: rest, refLower =>
    if jsIncludes key refLower || jsIncludes refLower key then some c.name
    else findFuzzy rest refLower

/-- `resolveChatroom` from `service.ts`: empty ref → configured default;
otherwise normalize to lowercased-then-trimmed, try the exact pass, then
the fuzzy pass, then create a room from the original ref via
`ensureChatroom` and return its canonical name. -/
def resolveChatroom (s : ServiceState) (ref : String) :
    Except String (ServiceState × String) :=
  if ref = "" then .ok (s, s.defaultChatroom)
  else
    let refLower := jsTrim (jsToLower ref)
    match findExact s.chatrooms refLower with
    | some name => .ok (s, name)
    | none =>
      match findFuzzy s.chatrooms refLower with
      | some name => .ok (s, name)
      | none =>
        match ensureChatroom s ref with
        | .ok (s2, c, _) => .ok (s2, c.name)
        | .error e => .error e

-- ==================== concrete states for examples ====================

/-- An initialized service state with no rooms yet: SDK loaded,
connection and keypair present, on-chain config derived as in
`initialize`. -/
def baseState : ServiceState :=
  { chatrooms := []
    seenMessages := []
    defaultChatroom := DEFAULT_CHATROOM
    agentName := "TestAgent"
    autonomousMode := false
    sdkAvailable := true
    hasConnection := true
    hasKeypair := true
    walletAddress := "AgentWallet1111"
    dbRootId := some (sha256 DB_ROOT_NAME)
    dbRootPda := some "dbRootPda"
    programId := some "programId" }

/-- Connect a list of configured rooms in order, as `initialize` does
over `settings.chatrooms` (on an initialized state `ensureChatroom`
never errors; the error branch is unreachable there). -/
def connectRooms (s : ServiceState) : List String → ServiceState
  | [] => s
  | n :: rest =>
    match ensureChatroom s n with
    | .ok (s2, _, _) => connectRooms s2 rest
    | .error _ => s

/-- The state of the spec's resolver examples: rooms `General` and
`Pump Fun`, default `General`. -/
def twoRoomState : ServiceState := connectRooms baseState ["General", "Pump Fun"]

-- ==================== sendMessage ====================

/-- Observable outcome of one `sendMessage` call: the returned value or
thrown error, the post-call state, the number of `writeRow` invocations,
the serialized message handed to `writeRow` (if any), and the
message-sent events emitted. -/
structure SendOutcome where
  result : Except String String
  state : ServiceState
  writeAttempts : Nat
  written : Option IQMessage
  eventsSent : List IQMessage
deriving Repr

/-- `sendMessage` from `service.ts`. The external inputs are explicit:
`newId` is the fresh `nanoid()`, `timestamp` the current ISO time, and
`writeResult` the outcome of the single external
`iqlabs.writer.writeRow` call (used only if the write is reached).
Checks the SDK, then connection/keypair; resolves the target room
(creating it if needed); builds the message verbatim from `content`;
performs the one write; on success adds the id to the seen-set and
emits the event, on failure rethrows the original error. -/
def sendMessage (s : ServiceState) (newId timestamp : String)
    (writeResult : Except String String) (content : String)
    (chatroom : Option String) : SendOutcome :=
  if !s.sdkAvailable then
    { result := .error "On-chain message sending requires iqlabs-sdk. Install it with: link:path/to/iqlabs-solana-sdk"
      state := s, writeAttempts := 0, written := none, eventsSent := [] }
  else if !s.hasConnection || !s.hasKeypair then
    { result := .error "IQ service not initialized"
      state := s, writeAttempts := 0, written := none, eventsSent := [] }
  else
    match (match chatroom with
           | some r => resolveChatroom s r
           | none => .ok (s, s.defaultChatroom)) with
    | .error e =>
      { result := .error e, state := s, writeAttempts := 0, written := none, eventsSent := [] }
    | .ok (s1, targetName) =>
      match ensureChatroom s1 targetName with
      | .error e =>
        { result := .error e, state := s1, writeAttempts := 0, written := none, eventsSent := [] }
      | .ok (s2, _targetChatroom, _) =>
        let message : IQMessage :=
          { id := newId, agent := s.agentName, wallet := s.walletAddress
            content := content, timestamp := timestamp, chatroom := some targetName }
        match writeResult with
        | .ok txSig =>
          { result := .ok txSig
            state := { s2 with seenMessages := addSeen s2.seenMessages message.id }
            writeAttempts := 1, written := some message, eventsSent := [message] }
        | .error err =>
          { result := .error err, state := s2
            writeAttempts := 1, written := some message, eventsSent := [] }

-- ==================== readMessages ====================

/-- The three read sources of `readMessages`, in code order. -/
inductive ReadSource
  | primaryApi
  | gateway
  | directLedger
deriving Repr, DecidableEq

/-- Oracle for the external read sources of one `readMessages` call:
`some msgs` means the fetch succeeded with an OK response that parsed
to `msgs`; `none` means the request threw or the response was not OK. -/
structure ReadEnv where
  primaryApi : Option (List IQMessage)
  gatewayApi : Option (List IQMessage)
  directLedger : Option (List IQMessage)
deriving Repr

/-- Tag a message with the resolved room name, as the `.map` in each
read branch does (`{ ...m, chatroom: targetName }`). -/
def tagRoom (name : String) (m : IQMessage) : IQMessage :=
  { m with chatroom := some name }

/-- The fallback cascade of `readMessages` after room resolution:
primary API first; gateway only when the room's table PDA is non-empty;
direct ledger read only when the SDK is available and the PDA is
non-empty; otherwise give up with no result. Returns the messages of
the first source that answered (`none` if all failed) together with the
list of sources actually invoked, in invocation order. -/
def readAttempt (sdkAvailable : Bool) (tablePda : String) (env : ReadEnv) :
    Option (List IQMessage) × List ReadSource :=
  match env.primaryApi with
  | some msgs => (some msgs, [.primaryApi])
  | none =>
    let (gres, invoked) :=
      if tablePda ≠ "" then (env.gatewayApi, [ReadSource.primaryApi, ReadSource.gateway])
      else (none, [ReadSource.primaryApi])
    match gres with
    | some msgs => (some msgs, invoked)
    | none =>
      if sdkAvailable && tablePda ≠ "" then
        match env.directLedger with
        | some msgs => (some msgs, invoked ++ [.directLedger])
        | none => (none, invoked ++ [.directLedger])
      else (none, invoked)

/-- `readMessages` from `service.ts`: resolve the target room (default
when absent), ensure its config, then run the three-tier fallback; all
returned messages are tagged with the resolved room name; exhaustion of
all sources yields `[]`, not an error. -/
def readMessages (s : ServiceState) (env : ReadEnv) (_limit : Nat)
    (chatroom : Option String) :
    Except String (ServiceState × List IQMessage × List ReadSource) :=
  match (match chatroom with
         | some r => resolveChatroom s r
         | none => .ok (s, s.defaultChatroom)) with
  | .error e => .error e
  | .ok (s1, targetName) =>
    match ensureChatroom s1 targetName with
    | .error e => .error e
    | .ok (s2, targetChatroom, _) =>
      match readAttempt s2.sdkAvailable targetChatroom.tablePda env with
      | (some msgs, invoked) => .ok (s2, msgs.map (tagRoom targetName), invoked)
      | (none, invoked) => .ok (s2, [], invoked)

-- ==================== polling ====================

/-- Observable outcome of processing one room's read batch inside the
polling loop: the updated seen-set, the messages handed to the
downstream consumer (`processIncomingMessage`), and the
message-received events emitted, both in processing order. -/
structure SweepResult where
  seen : List String
  dispatched : List IQMessage
  events : List IQMessage
deriving Repr, DecidableEq

/-- The per-message filter of `startMessagePolling` over one room's
read result: skip ids already in the seen-set; skip messages whose
wallet is the local signer's address; otherwise add the id to the
seen-set, emit the message-received event, and (when not in autonomous
mode) dispatch to the consumer. -/
def pollMessages (walletAddress : String) (autonomousMode : Bool) :
    List String → List IQMessage → SweepResult
  | seen, [] => ⟨seen, [], []⟩
  | seen, msg :: rest =>
    if msg.id ∈ seen then pollMessages walletAddress autonomousMode seen rest
    else if msg.wallet = walletAddress then pollMessages walletAddress autonomousMode seen rest
    else
      let r := pollMessages walletAddress autonomousMode (addSeen seen msg.id) rest
      ⟨r.seen, if autonomousMode then r.dispatched else msg :: r.dispatched, msg :: r.events⟩

/-- A concrete inbound message from another wallet, for witnesses. -/
def otherMsg : IQMessage :=
  { id := "msg-id-1", agent := "Alice", wallet := "OtherWallet9999"
    content := "hello", timestamp := "2026-01-01T00:00:00Z", chatroom := some "General" }

/-- A concrete message authored by the local signer of `baseState`
(self-echo), for witnesses. -/
def selfMsg : IQMessage :=
  { id := "msg-id-2", agent := "TestAgent", wallet := "AgentWallet1111"
    content := "mine", timestamp := "2026-01-01T00:00:01Z", chatroom := some "General" }

/-- The state after connecting only `General`, for the C5 witness. -/
def oneRoomState : ServiceState := connectRooms baseState ["General"]

/-- The chatroom config `ensureChatroom` derives for `General` on
`baseState`. -/
def generalRoom : IQChatroom :=
  { name := "General", dbRootId := sha256 DB_ROOT_NAME
    tableSeed := sha256 (CHATROOM_NS ++ "General")
    tablePda := getTablePda "dbRootPda" (sha256 (CHATROOM_NS ++ "General")) "programId" }

/-- Read oracle where every source fails, for C2. -/
def emptyEnv : ReadEnv :=
  { primaryApi := none, gatewayApi := none, directLedger := none }

/-- Read oracle where the primary API answers, for the C2 witness. -/
def primaryEnv : ReadEnv :=
  { primaryApi := some [otherMsg], gatewayApi := none, directLedger := none }

/-- A 2001-character content string, exceeding
`MESSAGE_LIMITS.maxContentLength`. -/
def longContent : String := ⟨List.replicate 2001 'a'⟩

/-- An initialized state whose keypair is missing, for C8. -/
def noKeypairState : ServiceState := { baseState with hasKeypair := false }

/-- The room created by resolving the ref `" Zed "` (whitespace kept
verbatim), for C10. -/
def zedRoom : IQChatroom := newChatroom baseState " Zed " (sha256 DB_ROOT_NAME)

/-- The state after `resolveChatroom baseState " Zed "` created its
room: the registry key keeps the surrounding whitespace, lowercased. -/
def zedState : ServiceState := { baseState with chatrooms := [(" zed ", zedRoom)] }

/-- The state after additionally resolving the unknown ref
`zzz-unknown` on `twoRoomState`, for C1. -/
def threeRoomState : ServiceState :=
  connectRooms baseState ["General", "Pump Fun", "zzz-unknown"]

-- ==================== helper lemmas: seen-set ====================

theorem mem_addSeen {seen : List String} {x id : String} :
    x ∈ addSeen seen id ↔ x ∈ seen ∨ x = id := by
  unfold addSeen
  split
  · constructor
    · exact Or.inl
    · rintro (h | rfl) <;> assumption
  · simp [List.mem_append]

theorem self_mem_addSeen (seen : List String) (id : String) :
    id ∈ addSeen seen id :=
  mem_addSeen.mpr (Or.inr rfl)

-- ==================== helper lemmas: polling ====================

theorem pollMessages_seen_mono (wa : String) (am : Bool) :
    ∀ (msgs : List IQMessage) (seen : List String) (x : String),
      x ∈ seen → x ∈ (pollMessages wa am seen msgs).seen
  | [], _, _, hx => hx
  | msg :: rest, seen, x, hx => by
    simp only [pollMessages]
    split
    · exact pollMessages_seen_mono wa am rest seen x hx
    · split
      · exact pollMessages_seen_mono wa am rest seen x hx
      · exact pollMessages_seen_mono wa am rest (addSeen seen msg.id) x
          (mem_addSeen.mpr (Or.inl hx))

theorem pollMessages_skip (wa : String) (am : Bool) :
    ∀ (msgs : List IQMessage) (seen : List String),
      (∀ m ∈ msgs, m.id ∈ seen ∨ m.wallet = wa) →
      pollMessages wa am seen msgs = ⟨seen, [], []⟩
  | [], _, _ => rfl
  | msg :: rest, seen, h => by
    have hrest : ∀ m ∈ rest, m.id ∈ seen ∨ m.wallet = wa :=
      fun m hm => h m (List.mem_cons_of_mem _ hm)
    have hr := pollMessages_skip wa am rest seen hrest
    rcases h msg (List.mem_cons_self _ _) with h1 | h2
    · simp [pollMessages, h1, hr]
    · by_cases h3 : msg.id ∈ seen
      · simp [pollMessages, h3, hr]
      · simp [pollMessages, h3, h2, hr]

theorem pollMessages_covers (wa : String) (am : Bool) :
    ∀ (msgs : List IQMessage) (seen : List String) (m : IQMessage), m ∈ msgs →
      m.id ∈ (pollMessages wa am seen msgs).seen ∨ m.wallet = wa
  | msg :: rest, seen, m, hm => by
    simp only [pollMessages]
    rcases List.mem_cons.mp hm with rfl | htail
    · by_cases h1 : m.id ∈ seen
      · simp only [h1, if_true]
        exact Or.inl (pollMessages_seen_mono wa am rest seen m.id h1)
      · by_cases h2 : m.wallet = wa
        · exact Or.inr h2
        · simp only [h1, h2, if_false]
          exact Or.inl (pollMessages_seen_mono wa am rest (addSeen seen m.id) m.id
            (self_mem_addSeen seen m.id))
    · by_cases h1 : msg.id ∈ seen
      · simp only [h1, if_true]
        exact pollMessages_covers wa am rest seen m htail
      · by_cases h2 : msg.wallet = wa
        · simp only [h1, h2, if_false, if_true]
          exact pollMessages_covers wa am rest seen m htail
        · simp only [h1, h2, if_false]
          exact pollMessages_covers wa am rest (addSeen seen msg.id) m htail

theorem pollMessages_events_wallet (wa : String) (am : Bool) :
    ∀ (msgs : List IQMessage) (seen : List String) (m : IQMessage),
      m ∈ (pollMessages wa am seen msgs).events → m.wallet ≠ wa
  | [], _, m => by intro hm; simp [pollMessages] at hm
  | msg :: rest, seen, m => by
    by_cases h1 : msg.id ∈ seen
    · simp only [pollMessages, if_pos h1]
      exact pollMessages_events_wallet wa am rest seen m
    · by_cases h2 : msg.wallet = wa
      · simp only [pollMessages, if_neg h1, if_pos h2]
        exact pollMessages_events_wallet wa am rest seen m
      · simp only [pollMessages, if_neg h1, if_neg h2]
        intro hm
        rcases List.mem_cons.mp hm with rfl | htail
        · exact h2
        · exact pollMessages_events_wallet wa am rest (addSeen seen msg.id) m htail

theorem pollMessages_dispatched_sub_events (wa : String) (am : Bool) :
    ∀ (msgs : List IQMessage) (seen : List String) (m : IQMessage),
      m ∈ (pollMessages wa am seen msgs).dispatched →
      m ∈ (pollMessages wa am seen msgs).events
  | [], _, m => by intro hm; simp [pollMessages] at hm
  | msg :: rest, seen, m => by
    by_cases h1 : msg.id ∈ seen
    · simp only [pollMessages, if_pos h1]
      exact pollMessages_dispatched_sub_events wa am rest seen m
    · by_cases h2 : msg.wallet = wa
      · simp only [pollMessages, if_neg h1, if_pos h2]
        exact pollMessages_dispatched_sub_events wa am rest seen m
      · cases am with
        | false =>
          simp only [pollMessages, if_neg h1, if_neg h2]
          intro hm
          simp at hm ⊢
          rcases hm with rfl | htail
          · exact Or.inl rfl
          · exact Or.inr
              (pollMessages_dispatched_sub_events wa false rest (addSeen seen msg.id) m htail)
        | true =>
          simp only [pollMessages, if_neg h1, if_neg h2]
          intro hm
          simp at hm ⊢
          exact Or.inr
            (pollMessages_dispatched_sub_events wa true rest (addSeen seen msg.id) m hm)

theorem pollMessages_events_id_seen (wa : String) (am : Bool) :
    ∀ (msgs : List IQMessage) (seen : List String) (m : IQMessage),
      m ∈ (pollMessages wa am seen msgs).events →
      m.id ∈ (pollMessages wa am seen msgs).seen
  | [], _, m => by intro hm; simp [pollMessages] at hm
  | msg :: rest, seen, m => by
    by_cases h1 : msg.id ∈ seen
    · simp only [pollMessages, if_pos h1]
      exact pollMessages_events_id_seen wa am rest seen m
    · by_cases h2 : msg.wallet = wa
      · simp only [pollMessages, if_neg h1, if_pos h2]
        exact pollMessages_events_id_seen wa am rest seen m
      · simp only [pollMessages, if_neg h1, if_neg h2]
        intro hm
        rcases List.mem_cons.mp hm with rfl | htail
        · exact pollMessages_seen_mono wa am rest (addSeen seen m.id) m.id
            (self_mem_addSeen seen m.id)
        · exact pollMessages_events_id_seen wa am rest (addSeen seen msg.id) m htail

example : roomNames twoRoomState = ["General", "Pump Fun"] := by decide
example : resolveChatroom twoRoomState "" = .ok (twoRoomState, "General") := rfl
example : resolveChatroom twoRoomState "GENERAL" = .ok (twoRoomState, "General") := rfl
example : resolveChatroom twoRoomState "pump" = .ok (twoRoomState, "Pump Fun") := rfl

-- ==================== claim theorems: polling ====================

/-- C3: the polling loop de-duplicates by message id via the shared
seen-set: messages whose ids are all already seen produce no dispatch,
no events, and leave the seen-set unchanged; every dispatched message
has its id recorded in the seen-set; a second sweep over the same batch
dispatches nothing; and a fresh non-self message fed in two successive
sweeps is dispatched exactly once (in the first sweep only). -/
theorem poller_dedup_by_id (wa : String) (am : Bool) (seen : List String)
    (msgs : List IQMessage) :
    ((∀ m ∈ msgs, m.id ∈ seen) → pollMessages wa am seen msgs = ⟨seen, [], []⟩) ∧
    (∀ m ∈ (pollMessages wa am seen msgs).dispatched,
        m.id ∈ (pollMessages wa am seen msgs).seen) ∧
    (pollMessages wa am (pollMessages wa am seen msgs).seen msgs =
      ⟨(pollMessages wa am seen msgs).seen, [], []⟩) ∧
    (∀ m : IQMessage, m.id ∉ seen → m.wallet ≠ wa →
      (pollMessages wa false seen [m]).dispatched = [m] ∧
      (pollMessages wa false (pollMessages wa false seen [m]).seen [m]).dispatched = []) := by
  refine ⟨?_, ?_, ?_, ?_⟩
  · intro h
    exact pollMessages_skip wa am msgs seen (fun m hm => Or.inl (h m hm))
  · intro m hm
    exact pollMessages_events_id_seen wa am msgs seen m
      (pollMessages_dispatched_sub_events wa am msgs seen m hm)
  · exact pollMessages_skip wa am msgs (pollMessages wa am seen msgs).seen
      (fun m hm => pollMessages_covers wa am msgs seen m hm)
  · intro m h1 h2
    have e1 : pollMessages wa false seen [m] = ⟨addSeen seen m.id, [m], [m]⟩ := by
      simp [pollMessages, h1, h2]
    refine ⟨by rw [e1], ?_⟩
    rw [e1]
    simp [pollMessages, self_mem_addSeen]

/-- Witness for C3 at a concrete input: a fresh non-self message in the
empty-seen state is dispatched in the first sweep and not in the
second. -/
theorem poller_dedup_by_id_witness :
    (pollMessages "AgentWallet1111" false [] [otherMsg]).dispatched = [otherMsg] ∧
    (pollMessages "AgentWallet1111" false
        (pollMessages "AgentWallet1111" false [] [otherMsg]).seen [otherMsg]).dispatched = [] :=
  (poller_dedup_by_id "AgentWallet1111" false [] [otherMsg]).2.2.2 otherMsg
    (by decide) (by decide)

/-- C4: self-echo suppression: a message whose sender wallet equals the
local signer's wallet address is never handed to the downstream
consumer and never has a message-received event emitted, even when it
is present in the raw read result. -/
theorem poller_self_echo (wa : String) (am : Bool) (seen : List String)
    (msgs : List IQMessage) (m : IQMessage)
    (_hmem : m ∈ msgs) (hw : m.wallet = wa) :
    m ∉ (pollMessages wa am seen msgs).events ∧
    m ∉ (pollMessages wa am seen msgs).dispatched := by
  constructor
  · intro hm
    exact pollMessages_events_wallet wa am msgs seen m hm hw
  · intro hm
    exact pollMessages_events_wallet wa am msgs seen m
      (pollMessages_dispatched_sub_events wa am msgs seen m hm) hw

/-- Witness for C4 at a concrete input: the self-authored message of
the local signer, present in the read batch, is neither dispatched nor
announced. -/
theorem poller_self_echo_witness :
    selfMsg ∉ (pollMessages "AgentWallet1111" false [] [otherMsg, selfMsg]).events ∧
    selfMsg ∉ (pollMessages "AgentWallet1111" false [] [otherMsg, selfMsg]).dispatched :=
  poller_self_echo "AgentWallet1111" false [] [otherMsg, selfMsg] selfMsg
    (by decide) (by decide)

-- ==================== helper lemmas: registry ====================

theorem mapGet_append_none {l1 : List (String × IQChatroom)} {k : String}
    (l2 : List (String × IQChatroom)) (h : mapGet l1 k = none) :
    mapGet (l1 ++ l2) k = mapGet l2 k := by
  induction l1 with
  | nil => rfl
  | cons p rest ih =>
    obtain ⟨k1, v1⟩ := p
    by_cases hk : k1 = k
    · subst hk
      simp [mapGet] at h
    · simp only [mapGet, if_neg hk] at h
      simp only [List.cons_append, mapGet, if_neg hk]
      exact ih h

theorem mapGet_none_iff {l : List (String × IQChatroom)} {k : String} :
    mapGet l k = none ↔ k ∉ l.map Prod.fst := by
  induction l with
  | nil => simp [mapGet]
  | cons p rest ih =>
    obtain ⟨k1, v1⟩ := p
    by_cases hk : k1 = k
    · subst hk
      simp [mapGet]
    · simp only [mapGet, if_neg hk, List.map_cons, List.mem_cons, ih]
      constructor
      · rintro hnot (h | h)
        · exact hk h.symm
        · exact hnot h
      · intro hnot h
        exact hnot (Or.inr h)

theorem ensureChatroom_of_mapGet {s : ServiceState} {n : String} {c : IQChatroom}
    (h : mapGet s.chatrooms (jsToLower n) = some c) :
    ensureChatroom s n = .ok (s, c, false) := by
  simp only [ensureChatroom, h]

theorem ensureChatroom_cases {s s1 : ServiceState} {n : String} {c : IQChatroom} {ins : Bool}
    (h : ensureChatroom s n = .ok (s1, c, ins)) :
    (mapGet s.chatrooms (jsToLower n) = some c ∧ s1 = s ∧ ins = false) ∨
    (mapGet s.chatrooms (jsToLower n) = none ∧ c.name = n ∧
     s1 = { s with chatrooms := s.chatrooms ++ [(jsToLower n, c)] } ∧ ins = true) := by
  simp only [ensureChatroom] at h
  split at h
  next existing heq =>
    simp only [Except.ok.injEq, Prod.mk.injEq] at h
    obtain ⟨hs, hc, hb⟩ := h
    exact Or.inl ⟨by rw [heq, hc], hs.symm, hb.symm⟩
  next heq =>
    split at h
    next hdb => exact absurd h (by simp)
    next d hdb =>
      simp only [Except.ok.injEq, Prod.mk.injEq] at h
      obtain ⟨hs, hc, hb⟩ := h
      refine Or.inr ⟨heq, by rw [← hc]; exact rfl, ?_, hb.symm⟩
      rw [← hs, ← hc]

-- ==================== claim theorem: room idempotence ====================

/-- C5: room creation is idempotent under case-insensitive names: after
a first `ensureChatroom` call, a second call with a name differing only
in case returns the same entry with the same state and the
inserted/logged/event flag `false`; the registry stays keyed by
lowercased names; registry keys stay unique; and the connected-rooms
list does not grow on the second call. -/
theorem ensureChatroom_case_idempotent (s s1 : ServiceState) (n1 n2 : String)
    (c : IQChatroom) (ins : Bool)
    (hcase : jsToLower n1 = jsToLower n2)
    (h1 : ensureChatroom s n1 = .ok (s1, c, ins)) :
    ensureChatroom s1 n2 = .ok (s1, c, false) ∧
    ((∀ p ∈ s.chatrooms, p.1 = jsToLower p.2.name) →
      ∀ p ∈ s1.chatrooms, p.1 = jsToLower p.2.name) ∧
    ((s.chatrooms.map Prod.fst).Nodup → (s1.chatrooms.map Prod.fst).Nodup) ∧
    (∀ s2 c2 ins2, ensureChatroom s1 n2 = .ok (s2, c2, ins2) →
      (roomNames s2).length = (roomNames s1).length) := by
  have hsecond : ensureChatroom s1 n2 = .ok (s1, c, false) := by
    rcases ensureChatroom_cases h1 with ⟨hget, hs, _⟩ | ⟨hget, hname, hs, _⟩
    · subst hs
      exact ensureChatroom_of_mapGet (hcase ▸ hget)
    · subst hs
      apply ensureChatroom_of_mapGet
      show mapGet (s.chatrooms ++ [(jsToLower n1, c)]) (jsToLower n2) = some c
      rw [← hcase, mapGet_append_none _ hget]
      simp [mapGet]
  refine ⟨hsecond, ?_, ?_, ?_⟩
  · intro hkeys p hp
    rcases ensureChatroom_cases h1 with ⟨_, hs, _⟩ | ⟨hget, hname, hs, _⟩
    · subst hs
      exact hkeys p hp
    · subst hs
      simp only [List.mem_append, List.mem_singleton] at hp
      rcases hp with hp | hp
      · exact hkeys p hp
      · subst hp
        simp [hname]
  · intro hnd
    rcases ensureChatroom_cases h1 with ⟨_, hs, _⟩ | ⟨hget, hname, hs, _⟩
    · subst hs
      exact hnd
    · subst hs
      simp only [List.map_append, List.map_cons, List.map_nil]
      simp only [List.nodup_append, List.nodup_cons, List.nodup_nil]
      refine ⟨hnd, ⟨by simp, trivial⟩, ?_⟩
      intro a ha hb
      simp only [List.mem_singleton] at hb
      subst hb
      exact mapGet_none_iff.mp hget ha
  · intro s2 c2 ins2 h2
    rw [hsecond] at h2
    simp only [Except.ok.injEq, Prod.mk.injEq] at h2
    rw [← h2.1]

/-- Witness for C5: connecting `General` then ensuring `GENERAL` on
`baseState` returns the existing room with no insertion. -/
theorem ensureChatroom_case_idempotent_witness :
    ensureChatroom oneRoomState "GENERAL" = .ok (oneRoomState, generalRoom, false) :=
  (ensureChatroom_case_idempotent baseState oneRoomState "General" "GENERAL"
    generalRoom true (by decide) (by rfl)).1

-- ==================== helper lemmas: resolution totality ====================

theorem ensureChatroom_ok_of_dbRootId {s : ServiceState} (n : String)
    (h : s.dbRootId.isSome) :
    ∃ s1 c ins, ensureChatroom s n = .ok (s1, c, ins) := by
  cases hres : ensureChatroom s n with
  | ok v => exact ⟨v.1, v.2.1, v.2.2, rfl⟩
  | error e =>
    exfalso
    obtain ⟨d, hd⟩ := Option.isSome_iff_exists.mp h
    simp only [ensureChatroom, hd] at hres
    split at hres <;> simp at hres

theorem ensureChatroom_preserves {s s1 : ServiceState} {n : String}
    {c : IQChatroom} {ins : Bool}
    (h : ensureChatroom s n = .ok (s1, c, ins)) :
    s1.seenMessages = s.seenMessages ∧ s1.sdkAvailable = s.sdkAvailable ∧
    s1.dbRootId = s.dbRootId ∧ s1.defaultChatroom = s.defaultChatroom := by
  rcases ensureChatroom_cases h with ⟨_, hs, _⟩ | ⟨_, _, hs, _⟩ <;> subst hs <;>
    exact ⟨rfl, rfl, rfl, rfl⟩

theorem resolveChatroom_ok {s : ServiceState} (ref : String)
    (h : s.dbRootId.isSome) :
    ∃ s1 n, resolveChatroom s ref = .ok (s1, n) := by
  by_cases he : ref = ""
  · exact ⟨s, s.defaultChatroom, by simp [resolveChatroom, he]⟩
  · cases e1 : findExact s.chatrooms (jsTrim (jsToLower ref)) with
    | some name => exact ⟨s, name, by simp [resolveChatroom, he, e1]⟩
    | none =>
      cases e2 : findFuzzy s.chatrooms (jsTrim (jsToLower ref)) with
      | some name => exact ⟨s, name, by simp [resolveChatroom, he, e1, e2]⟩
      | none =>
        obtain ⟨s1, c, ins, he3⟩ := ensureChatroom_ok_of_dbRootId ref h
        exact ⟨s1, c.name, by simp [resolveChatroom, he, e1, e2, he3]⟩

theorem resolveChatroom_preserves {s s1 : ServiceState} {ref n : String}
    (h : resolveChatroom s ref = .ok (s1, n)) :
    s1.seenMessages = s.seenMessages ∧ s1.sdkAvailable = s.sdkAvailable ∧
    s1.dbRootId = s.dbRootId ∧ s1.defaultChatroom = s.defaultChatroom := by
  simp only [resolveChatroom] at h
  split at h
  · simp only [Except.ok.injEq, Prod.mk.injEq] at h
    rw [← h.1]
    exact ⟨rfl, rfl, rfl, rfl⟩
  · split at h
    · simp only [Except.ok.injEq, Prod.mk.injEq] at h
      rw [← h.1]
      exact ⟨rfl, rfl, rfl, rfl⟩
    · split at h
      · simp only [Except.ok.injEq, Prod.mk.injEq] at h
        rw [← h.1]
        exact ⟨rfl, rfl, rfl, rfl⟩
      · split at h
        next s2 c b heq =>
          simp only [Except.ok.injEq, Prod.mk.injEq] at h
          rw [← h.1]
          exact ensureChatroom_preserves heq
        next e heq => exact absurd h (by simp)

-- ==================== helper lemmas: read fallback ====================

theorem readAttempt_exhausted (sdk : Bool) (pda : String) (env : ReadEnv)
    (h1 : env.primaryApi = none) (h2 : env.gatewayApi = none)
    (h3 : env.directLedger = none) :
    (readAttempt sdk pda env).1 = none := by
  unfold readAttempt
  rw [h1]
  by_cases hp : pda = ""
  · simp [hp, h2, h3]
  · simp only [hp, h2, h3]
    cases sdk <;> simp [hp]

theorem readMessages_resolution (s : ServiceState) (env : ReadEnv) (limit : Nat)
    (chatroom : Option String) (hdb : s.dbRootId.isSome) :
    ∃ (s2 : ServiceState) (name : String) (c : IQChatroom),
      readMessages s env limit chatroom =
      (match readAttempt s2.sdkAvailable c.tablePda env with
       | (some msgs, invoked) => .ok (s2, msgs.map (tagRoom name), invoked)
       | (none, invoked) => .ok (s2, [], invoked)) := by
  have hres : ∃ (s1 : ServiceState) (name : String),
      (match chatroom with
       | some r => resolveChatroom s r
       | none => (.ok (s, s.defaultChatroom) : Except String (ServiceState × String))) =
        .ok (s1, name) ∧ s1.dbRootId.isSome := by
    cases chatroom with
    | none => exact ⟨s, s.defaultChatroom, rfl, hdb⟩
    | some r =>
      obtain ⟨s1, n1, h1⟩ := resolveChatroom_ok r hdb
      refine ⟨s1, n1, h1, ?_⟩
      rw [(resolveChatroom_preserves h1).2.2.1]
      exact hdb
  obtain ⟨s1, name, hres1, hdb1⟩ := hres
  obtain ⟨s2, c, ins, hens⟩ := ensureChatroom_ok_of_dbRootId name hdb1
  refine ⟨s2, name, c, ?_⟩
  simp only [readMessages, hres1, hens]

-- ==================== claim theorem: read fallback ====================

/-- C2: `readMessages` tries primary API, then gateway (only with a
table address), then direct ledger (only with SDK and table address),
strictly in that order: primary success means only the primary source
is invoked; gateway success after primary failure means the direct
ledger is never invoked; the gateway requires a table address and the
direct read additionally the SDK; and when all sources fail (including
when no table address was resolved) `readMessages` returns an empty
list without raising. -/
theorem readMessages_fallback_order (s : ServiceState) (env : ReadEnv)
    (limit : Nat) (chatroom : Option String) (sdk : Bool) (pda : String)
    (hdb : s.dbRootId.isSome) :
    (∀ msgs, env.primaryApi = some msgs →
      readAttempt sdk pda env = (some msgs, [ReadSource.primaryApi])) ∧
    (∀ msgs, env.primaryApi = none → pda ≠ "" → env.gatewayApi = some msgs →
      readAttempt sdk pda env = (some msgs, [ReadSource.primaryApi, ReadSource.gateway])) ∧
    (ReadSource.gateway ∈ (readAttempt sdk pda env).2 → pda ≠ "") ∧
    (ReadSource.directLedger ∈ (readAttempt sdk pda env).2 → sdk = true ∧ pda ≠ "") ∧
    (env.primaryApi = none → env.gatewayApi = none → env.directLedger = none →
      ∃ s2 invoked, readMessages s env limit chatroom = .ok (s2, [], invoked)) ∧
    (∃ s2 msgs invoked, readMessages s env limit chatroom = .ok (s2, msgs, invoked)) := by
  refine ⟨?_, ?_, ?_, ?_, ?_, ?_⟩
  · intro msgs h
    simp [readAttempt, h]
  · intro msgs h1 hp h2
    simp [readAttempt, h1, h2, hp]
  · intro hmem
    by_cases hp : pda = ""
    · exfalso
      cases hprim : env.primaryApi <;> simp [readAttempt, hprim, hp] at hmem
    · exact hp
  · intro hmem
    constructor
    · by_contra hsdk
      have hs : sdk = false := by revert hsdk; cases sdk <;> simp
      subst hs
      cases hprim : env.primaryApi with
      | none =>
        by_cases hp : pda = ""
        · simp [readAttempt, hprim, hp] at hmem
        · cases hgw : env.gatewayApi <;>
            simp [readAttempt, hprim, hp, hgw] at hmem
      | some msgs => simp [readAttempt, hprim] at hmem
    · by_cases hp : pda = ""
      · exfalso
        cases hprim : env.primaryApi <;> simp [readAttempt, hprim, hp] at hmem
      · exact hp
  · intro h1 h2 h3
    obtain ⟨s2, name, c, heq⟩ := readMessages_resolution s env limit chatroom hdb
    have hnone := readAttempt_exhausted s2.sdkAvailable c.tablePda env h1 h2 h3
    rcases hra : readAttempt s2.sdkAvailable c.tablePda env with ⟨fst, invoked⟩
    rw [hra] at hnone heq
    simp only at hnone
    subst hnone
    exact ⟨s2, invoked, heq⟩
  · obtain ⟨s2, name, c, heq⟩ := readMessages_resolution s env limit chatroom hdb
    rcases hra : readAttempt s2.sdkAvailable c.tablePda env with ⟨fst, invoked⟩
    rw [hra] at heq
    cases fst with
    | some msgs => exact ⟨s2, msgs.map (tagRoom name), invoked, heq⟩
    | none => exact ⟨s2, [], invoked, heq⟩

/-- Witness for C2 at a concrete input: with the primary API answering,
only the primary source is invoked. -/
theorem readMessages_fallback_order_witness :
    readAttempt true "pda" primaryEnv = (some [otherMsg], [ReadSource.primaryApi]) :=
  (readMessages_fallback_order baseState primaryEnv 20 none true "pda"
    (by decide)).1 [otherMsg] rfl

-- ==================== helper lemmas: sendMessage ====================

theorem sendMessage_run (s : ServiceState) (newId ts content : String)
    (room : Option String)
    (hsdk : s.sdkAvailable = true) (hconn : s.hasConnection = true)
    (hkey : s.hasKeypair = true) (hdb : s.dbRootId.isSome) :
    ∃ (s2 : ServiceState) (targetName : String),
      s2.seenMessages = s.seenMessages ∧
      (∀ txSig, sendMessage s newId ts (.ok txSig) content room =
        { result := .ok txSig
          state := { s2 with seenMessages := addSeen s2.seenMessages newId }
          writeAttempts := 1
          written := some { id := newId, agent := s.agentName, wallet := s.walletAddress
                            content := content, timestamp := ts, chatroom := some targetName }
          eventsSent := [{ id := newId, agent := s.agentName, wallet := s.walletAddress
                           content := content, timestamp := ts, chatroom := some targetName }] }) ∧
      (∀ err, sendMessage s newId ts (.error err) content room =
        { result := .error err
          state := s2
          writeAttempts := 1
          written := some { id := newId, agent := s.agentName, wallet := s.walletAddress
                            content := content, timestamp := ts, chatroom := some targetName }
          eventsSent := [] }) := by
  have hres : ∃ (s1 : ServiceState) (name : String),
      (match room with
       | some r => resolveChatroom s r
       | none => (.ok (s, s.defaultChatroom) : Except String (ServiceState × String))) =
        .ok (s1, name) ∧ s1.seenMessages = s.seenMessages ∧ s1.dbRootId.isSome := by
    cases room with
    | none => exact ⟨s, s.defaultChatroom, rfl, rfl, hdb⟩
    | some r =>
      obtain ⟨s1, n1, h1⟩ := resolveChatroom_ok r hdb
      refine ⟨s1, n1, h1, (resolveChatroom_preserves h1).1, ?_⟩
      rw [(resolveChatroom_preserves h1).2.2.1]
      exact hdb
  obtain ⟨s1, name, h1, hseen1, hdb1⟩ := hres
  obtain ⟨s2, c, ins, h2⟩ := ensureChatroom_ok_of_dbRootId name hdb1
  have hseen2 : s2.seenMessages = s.seenMessages :=
    (ensureChatroom_preserves h2).1.trans hseen1
  refine ⟨s2, name, hseen2, ?_, ?_⟩ <;> intro x <;>
    simp [sendMessage, hsdk, hconn, hkey, h1, h2]

theorem sendMessage_attempts_le_one (s : ServiceState) (newId ts : String)
    (wr : Except String String) (content : String) (room : Option String) :
    (sendMessage s newId ts wr content room).writeAttempts ≤ 1 := by
  unfold sendMessage
  split
  · simp
  · split
    · simp
    · split
      · simp
      · split
        · simp
        · split <;> simp

-- ==================== claim theorems: sendMessage ====================

/-- C6: on a ledger write failure `sendMessage` makes no second attempt
(a single `writeRow` invocation, and never more than one on any
outcome), propagates the original error unchanged, and leaves the
seen-set untouched; the fresh message id is recorded in the seen-set
only on a successful write. -/
theorem sendMessage_failure_contract (s : ServiceState)
    (newId ts err txSig content : String) (room : Option String)
    (hsdk : s.sdkAvailable = true) (hconn : s.hasConnection = true)
    (hkey : s.hasKeypair = true) (hdb : s.dbRootId.isSome) :
    (sendMessage s newId ts (.error err) content room).result = .error err ∧
    (sendMessage s newId ts (.error err) content room).writeAttempts = 1 ∧
    (∀ wr, (sendMessage s newId ts wr content room).writeAttempts ≤ 1) ∧
    (sendMessage s newId ts (.error err) content room).state.seenMessages =
      s.seenMessages ∧
    newId ∈ (sendMessage s newId ts (.ok txSig) content room).state.seenMessages := by
  obtain ⟨s2, name, hseen, hok, herr⟩ :=
    sendMessage_run s newId ts content room hsdk hconn hkey hdb
  refine ⟨?_, ?_, ?_, ?_, ?_⟩
  · rw [herr err]
  · rw [herr err]
  · intro wr
    exact sendMessage_attempts_le_one s newId ts wr content room
  · rw [herr err]
    exact hseen
  · rw [hok txSig]
    exact self_mem_addSeen s2.seenMessages newId

/-- Witness for C6 at a concrete input: a failed write on `baseState`
returns the original error and leaves the seen-set empty. -/
theorem sendMessage_failure_contract_witness :
    (sendMessage baseState "id1" "t0" (.error "boom") "hello" none).result =
      .error "boom" ∧
    (sendMessage baseState "id1" "t0" (.error "boom") "hello" none).state.seenMessages =
      baseState.seenMessages :=
  ⟨(sendMessage_failure_contract baseState "id1" "t0" "boom" "tx" "hello" none
      rfl rfl rfl (by decide)).1,
   (sendMessage_failure_contract baseState "id1" "t0" "boom" "tx" "hello" none
      rfl rfl rfl (by decide)).2.2.2.1⟩

/-- C8: `sendMessage` demands a live connection and a keypair: with the
SDK present, if either is missing it fails with the hard
`IQ service not initialized` error before any resolution (state
untouched) or write (zero attempts); and a write is only ever attempted
when both connection and keypair are present. -/
theorem sendMessage_requires_init (s : ServiceState) (newId ts content : String)
    (room : Option String) (wr : Except String String)
    (hsdk : s.sdkAvailable = true) :
    ((s.hasConnection = false ∨ s.hasKeypair = false) →
      sendMessage s newId ts wr content room =
        { result := .error "IQ service not initialized", state := s
          writeAttempts := 0, written := none, eventsSent := [] }) ∧
    ((sendMessage s newId ts wr content room).writeAttempts ≠ 0 →
      s.hasConnection = true ∧ s.hasKeypair = true) := by
  constructor
  · rintro (habs | habs) <;> simp [sendMessage, hsdk, habs]
  · intro hw
    by_cases hconn : s.hasConnection
    · by_cases hkey : s.hasKeypair
      · exact ⟨hconn, hkey⟩
      · exfalso
        apply hw
        have hk : s.hasKeypair = false := by revert hkey; cases s.hasKeypair <;> simp
        simp [sendMessage, hsdk, hk]
    · exfalso
      apply hw
      have hc : s.hasConnection = false := by revert hconn; cases s.hasConnection <;> simp
      simp [sendMessage, hsdk, hc]

/-- Witness for C8 at a concrete input: with the keypair missing, the
call fails hard with `IQ service not initialized`, no state change and
no write attempt. -/
theorem sendMessage_requires_init_witness :
    sendMessage noKeypairState "id1" "t0" (.ok "tx") "hello" none =
      { result := .error "IQ service not initialized", state := noKeypairState
        writeAttempts := 0, written := none, eventsSent := [] } :=
  (sendMessage_requires_init noKeypairState "id1" "t0" "hello" none (.ok "tx")
    rfl).1 (Or.inr rfl)

/-- C7 counterexample: on `baseState`, sending a 2001-character content
writes that content in full — the written message's content is the
unmodified input whose length strictly exceeds
`MESSAGE_LIMITS.maxContentLength` (2000), so the content handed to the
ledger write is not size-bounded to 2000 characters. -/
theorem sendMessage_no_content_bound_cex :
    ((sendMessage baseState "id1" "t0" (.ok "tx") longContent none).written.map
        IQMessage.content) = some longContent ∧
    MESSAGE_LIMITS_maxContentLength < longContent.length := by
  constructor
  · rfl
  · show 2000 < longContent.length
    have h0 : longContent.length = (List.replicate 2001 'a').length := rfl
    rw [h0, List.length_replicate]
    decide

/-- C7 amended: `sendMessage` performs no size bounding at all — the
content written to the ledger is exactly the caller-supplied content
(character-for-character, hence of equal length), while the configured
`MESSAGE_LIMITS.maxContentLength` (2000) is never consulted. -/
theorem sendMessage_content_verbatim (s : ServiceState) (newId ts content : String)
    (room : Option String) (wr : Except String String)
    (hsdk : s.sdkAvailable = true) (hconn : s.hasConnection = true)
    (hkey : s.hasKeypair = true) (hdb : s.dbRootId.isSome) :
    ((sendMessage s newId ts wr content room).written.map IQMessage.content) =
      some content ∧
    ((sendMessage s newId ts wr content room).written.map
        (fun m => m.content.length)) = some content.length := by
  obtain ⟨s2, name, _, hok, herr⟩ :=
    sendMessage_run s newId ts content room hsdk hconn hkey hdb
  cases wr with
  | ok txSig => rw [hok txSig]; exact ⟨rfl, rfl⟩
  | error err => rw [herr err]; exact ⟨rfl, rfl⟩

/-- Witness for the amended C7 at a concrete input. -/
theorem sendMessage_content_verbatim_witness :
    ((sendMessage baseState "id9" "t9" (.ok "tx") "hi there" none).written.map
        IQMessage.content) = some "hi there" :=
  (sendMessage_content_verbatim baseState "id9" "t9" "hi there" none (.ok "tx")
    rfl rfl rfl (by decide)).1

-- ==================== helper lemmas: strings ====================

theorem prefixOf_append (ns suf : List Char) : ns.isPrefixOf (ns ++ suf) = true := by
  induction ns with
  | nil => simp [List.isPrefixOf]
  | cons c t ih => simp [List.isPrefixOf, ih]

theorem containsSub_nil_needle (l : List Char) : containsSub l [] = true := by
  cases l <;> simp [containsSub, List.isPrefixOf]

theorem jsIncludes_empty_needle (a : String) : jsIncludes a "" = true := by
  show containsSub a.data [] = true
  exact containsSub_nil_needle a.data

theorem containsSub_of_append (pre ns suf : List Char) :
    containsSub (pre ++ (ns ++ suf)) ns = true := by
  induction pre with
  | nil =>
    simp only [List.nil_append]
    cases ns with
    | nil => exact containsSub_nil_needle suf
    | cons c ns2 =>
      simp only [List.cons_append, containsSub]
      have h := prefixOf_append (c :: ns2) suf
      simp only [List.cons_append] at h
      simp [h]
  | cons a t ih => simp [containsSub, ih]

theorem jsTrimList_decomp (l : List Char) :
    ∃ pre suf, l = pre ++ (jsTrimList l ++ suf) := by
  refine ⟨l.takeWhile Char.isWhitespace,
    ((l.dropWhile Char.isWhitespace).reverse.takeWhile Char.isWhitespace).reverse, ?_⟩
  unfold jsTrimList
  conv_lhs => rw [← List.takeWhile_append_dropWhile Char.isWhitespace l]
  congr 1
  have h1 : (l.dropWhile Char.isWhitespace).reverse =
      (l.dropWhile Char.isWhitespace).reverse.takeWhile Char.isWhitespace ++
      (l.dropWhile Char.isWhitespace).reverse.dropWhile Char.isWhitespace :=
    (List.takeWhile_append_dropWhile _ _).symm
  calc l.dropWhile Char.isWhitespace
      = (l.dropWhile Char.isWhitespace).reverse.reverse := by rw [List.reverse_reverse]
    _ = ((l.dropWhile Char.isWhitespace).reverse.takeWhile Char.isWhitespace ++
         (l.dropWhile Char.isWhitespace).reverse.dropWhile Char.isWhitespace).reverse := by
          rw [← h1]
    _ = ((l.dropWhile Char.isWhitespace).reverse.dropWhile Char.isWhitespace).reverse ++
        ((l.dropWhile Char.isWhitespace).reverse.takeWhile Char.isWhitespace).reverse := by
          rw [List.reverse_append]

theorem containsSub_trimOf (l : List Char) : containsSub l (jsTrimList l) = true := by
  obtain ⟨pre, suf, h⟩ := jsTrimList_decomp l
  nth_rewrite 1 [h]
  exact containsSub_of_append pre (jsTrimList l) suf

theorem jsIncludes_trimOf (a : String) : jsIncludes a (jsTrim a) = true := by
  show containsSub a.data (jsTrim a).data = true
  exact containsSub_trimOf a.data

theorem map_toLower_of_ws (l : List Char) (h : ∀ c ∈ l, c.isWhitespace = true) :
    l.map Char.toLower = l := by
  have h2 : l.map Char.toLower = l.map id :=
    List.map_congr_left (fun a ha => by
      have hw := h a ha
      simp [Char.isWhitespace] at hw
      rcases hw with ((hw | hw) | hw) | hw <;> subst hw <;> decide)
  rw [h2, List.map_id]

theorem jsTrim_jsToLower_of_ws (s : String)
    (h : ∀ c ∈ s.data, c.isWhitespace = true) :
    jsTrim (jsToLower s) = "" := by
  have hdrop : s.data.dropWhile Char.isWhitespace = [] :=
    List.dropWhile_eq_nil_iff.mpr h
  show String.mk (jsTrimList (String.mk (s.data.map Char.toLower)).data) = ""
  have h3 : (String.mk (s.data.map Char.toLower)).data = s.data := map_toLower_of_ws s.data h
  rw [h3]
  unfold jsTrimList
  rw [hdrop]
  rfl

-- ==================== helper lemmas: resolver passes ====================

theorem findExact_none_of_keys {l : List (String × IQChatroom)} {r : String}
    (h : ∀ p ∈ l, p.1 ≠ r) : findExact l r = none := by
  induction l with
  | nil => rfl
  | cons p rest ih =>
    obtain ⟨pk, pc⟩ := p
    have hk : pk ≠ r := h (pk, pc) (List.mem_cons_self _ _)
    simp only [findExact, if_neg hk]
    exact ih (fun q hq => h q (List.mem_cons_of_mem _ hq))

theorem findFuzzy_isSome_of_mem {l : List (String × IQChatroom)} {k r : String}
    {c : IQChatroom} (hmem : (k, c) ∈ l)
    (hmatch : (jsIncludes k r || jsIncludes r k) = true) :
    ∃ n, findFuzzy l r = some n := by
  induction l with
  | nil => cases hmem
  | cons p rest ih =>
    obtain ⟨pk, pc⟩ := p
    by_cases hc : (jsIncludes pk r || jsIncludes r pk) = true
    · exact ⟨pc.name, by simp [findFuzzy, hc]⟩
    · rcases List.mem_cons.mp hmem with heq | htail
      · cases heq
        exact absurd hmatch hc
      · obtain ⟨n, hn⟩ := ih htail
        exact ⟨n, by simp only [findFuzzy, hc, if_false]; exact hn⟩

-- ==================== claim theorem: whitespace-only ref ====================

/-- C9 (implicit): a non-empty all-whitespace ref normalizes to the
empty string, which the exact pass cannot match (given the registered
keys are non-empty) but which is a substring of every key — so the
fuzzy pass fires on the first registered room and `resolveChatroom`
returns that room's canonical name with no state change, rather than
taking the default-chatroom branch. -/
theorem resolveChatroom_whitespace_ref (s : ServiceState) (ref k : String)
    (c : IQChatroom) (rest : List (String × IQChatroom))
    (hrooms : s.chatrooms = (k, c) :: rest)
    (hkeys : ∀ p ∈ s.chatrooms, p.1 ≠ "")
    (hne : ref ≠ "")
    (hws : ∀ ch ∈ ref.data, ch.isWhitespace = true) :
    resolveChatroom s ref = .ok (s, c.name) := by
  have hnorm : jsTrim (jsToLower ref) = "" := jsTrim_jsToLower_of_ws ref hws
  have hexact : findExact s.chatrooms "" = none :=
    findExact_none_of_keys hkeys
  have hfuzzy : findFuzzy s.chatrooms "" = some c.name := by
    rw [hrooms]
    simp [findFuzzy, jsIncludes_empty_needle]
  simp [resolveChatroom, hne, hnorm, hexact, hfuzzy]

/-- Witness for C9 at a concrete input: resolving `" "` against the
one-room registry returns `General`, the first room, not via the
default branch. -/
theorem resolveChatroom_whitespace_ref_witness :
    resolveChatroom oneRoomState " " = .ok (oneRoomState, "General") :=
  resolveChatroom_whitespace_ref oneRoomState " " "general" generalRoom []
    (by decide) (by decide) (by decide) (by decide)

theorem mapGet_some_mem {l : List (String × IQChatroom)} {k : String} {v : IQChatroom}
    (h : mapGet l k = some v) : (k, v) ∈ l := by
  induction l with
  | nil => cases h
  | cons p rest ih =>
    obtain ⟨pk, pc⟩ := p
    by_cases hk : pk = k
    · subst hk
      simp only [mapGet, if_pos rfl] at h
      cases h
      exact List.mem_cons_self _ _
    · simp only [mapGet, if_neg hk] at h
      exact List.mem_cons_of_mem _ (ih h)

-- ==================== claim theorems: verbatim creation ====================

/-- C10 counterexample: after the all-miss ref `" Zed "` creates its
room (canonical name and lowercased key keep the surrounding
whitespace), the ref `"Zed"` — differing only in surrounding
whitespace — can no longer miss: its trimmed normalization is a
substring of the stored key, so it resolves to the existing `" Zed "`
room with the state unchanged and the room list still a singleton; no
second distinct chatroom is ever created from the whitespace variant. -/
theorem resolveChatroom_ws_variant_cex :
    resolveChatroom baseState " Zed " = .ok (zedState, " Zed ") ∧
    resolveChatroom zedState "Zed" = .ok (zedState, " Zed ") ∧
    roomNames zedState = [" Zed "] :=
  ⟨rfl, rfl, rfl⟩

/-- C10 (amended): when `resolveChatroom` falls through to creation it
uses the original ref verbatim — the new room's canonical name is the
untrimmed, case-preserved ref and its registry key is the lowercased
(still untrimmed) ref, both retaining surrounding whitespace; however,
once a room created from `ref1` is registered, any `ref2` with the same
trimmed-lowercased core (in particular one differing from `ref1` only
in surrounding whitespace) never misses: it resolves with no state
change, so a second distinct chatroom is never created. -/
theorem resolveChatroom_create_verbatim (s : ServiceState)
    (ref ref1 ref2 d : String) (c1 : IQChatroom) :
    (ref ≠ "" →
     findExact s.chatrooms (jsTrim (jsToLower ref)) = none →
     findFuzzy s.chatrooms (jsTrim (jsToLower ref)) = none →
     s.dbRootId = some d →
     (newChatroom s ref d).name = ref ∧
     resolveChatroom s ref =
       .ok ({ s with chatrooms :=
                s.chatrooms ++ [(jsToLower ref, newChatroom s ref d)] }, ref)) ∧
    ((jsToLower ref1, c1) ∈ s.chatrooms →
     jsTrim (jsToLower ref1) = jsTrim (jsToLower ref2) →
     Except.map Prod.fst (resolveChatroom s ref2) = .ok s) := by
  constructor
  · intro hne hex hfz hdb
    refine ⟨?_, ?_⟩
    · rfl
    have hget : mapGet s.chatrooms (jsToLower ref) = none := by
      cases hg : mapGet s.chatrooms (jsToLower ref) with
      | none => rfl
      | some v =>
        exfalso
        have hmem := mapGet_some_mem hg
        have hmatch : (jsIncludes (jsToLower ref) (jsTrim (jsToLower ref)) ||
            jsIncludes (jsTrim (jsToLower ref)) (jsToLower ref)) = true := by
          rw [jsIncludes_trimOf]
          simp
        obtain ⟨n, hn⟩ := findFuzzy_isSome_of_mem hmem hmatch
        rw [hfz] at hn
        cases hn
    have hens : ensureChatroom s ref =
        .ok ({ s with chatrooms :=
                 s.chatrooms ++ [(jsToLower ref, newChatroom s ref d)] },
             newChatroom s ref d, true) := by
      simp only [ensureChatroom, hget, hdb]
    simp [resolveChatroom, hne, hex, hfz, hens, newChatroom]
  · intro hmem htrim
    by_cases hne2 : ref2 = ""
    · simp [resolveChatroom, hne2, Except.map]
    · cases hex2 : findExact s.chatrooms (jsTrim (jsToLower ref2)) with
      | some n => simp [resolveChatroom, hne2, hex2, Except.map]
      | none =>
        have hmatch : (jsIncludes (jsToLower ref1) (jsTrim (jsToLower ref2)) ||
            jsIncludes (jsTrim (jsToLower ref2)) (jsToLower ref1)) = true := by
          rw [← htrim, jsIncludes_trimOf]
          simp
        obtain ⟨n, hn⟩ := findFuzzy_isSome_of_mem hmem hmatch
        simp [resolveChatroom, hne2, hex2, hn, Except.map]

/-- Witness for the amended C10 at a concrete input: with the
`" Zed "`-created room registered, the whitespace variant `"Zed"`
resolves without creating anything. -/
theorem resolveChatroom_create_verbatim_witness :
    Except.map Prod.fst (resolveChatroom zedState "Zed") = .ok zedState :=
  (resolveChatroom_create_verbatim zedState "unused" " Zed " "Zed" "d" zedRoom).2
    (by decide) (by decide)

-- ==================== claim theorem: resolution cascade ====================

/-- C1: the full resolution cascade of `resolveChatroom`: an empty ref
returns the configured default room; otherwise the ref is normalized to
trimmed lowercase and an exact match against a registered key returns
that room's canonical name with no state change; otherwise the first
room (in registry insertion order) whose key contains the normalized
ref or is contained in it wins, with no state change; on an initialized
service resolution never fails and always returns some room name; and
on the example registry `[General, Pump Fun]` with default `General`:
`resolve("")` = `General`, `resolve("GENERAL")` = `General`,
`resolve("pump")` = `Pump Fun`, and `resolve("zzz-unknown")` creates
and returns `zzz-unknown`, which subsequently appears in the room
list. -/
theorem resolveChatroom_cascade :
    (∀ s : ServiceState, resolveChatroom s "" = .ok (s, s.defaultChatroom)) ∧
    (∀ (s : ServiceState) (ref n : String), ref ≠ "" →
      findExact s.chatrooms (jsTrim (jsToLower ref)) = some n →
      resolveChatroom s ref = .ok (s, n)) ∧
    (∀ (s : ServiceState) (ref n : String), ref ≠ "" →
      findExact s.chatrooms (jsTrim (jsToLower ref)) = none →
      findFuzzy s.chatrooms (jsTrim (jsToLower ref)) = some n →
      resolveChatroom s ref = .ok (s, n)) ∧
    (∀ (s : ServiceState) (ref : String), s.dbRootId.isSome →
      ∃ s2 n, resolveChatroom s ref = .ok (s2, n)) ∧
    (resolveChatroom twoRoomState "" = .ok (twoRoomState, "General") ∧
     resolveChatroom twoRoomState "GENERAL" = .ok (twoRoomState, "General") ∧
     resolveChatroom twoRoomState "pump" = .ok (twoRoomState, "Pump Fun") ∧
     resolveChatroom twoRoomState "zzz-unknown" = .ok (threeRoomState, "zzz-unknown") ∧
     roomNames threeRoomState = ["General", "Pump Fun", "zzz-unknown"]) := by
  refine ⟨?_, ?_, ?_, ?_, rfl, rfl, rfl, rfl, by decide⟩
  · intro s
    simp [resolveChatroom]
  · intro s ref n hne hfind
    simp [resolveChatroom, hne, hfind]
  · intro s ref n hne hex hfz
    simp [resolveChatroom, hne, hex, hfz]
  · intro s ref h
    exact resolveChatroom_ok ref h

/-- Witness for C1 at a concrete input: the fuzzy pass resolves `pump`
to `Pump Fun` on the example registry, with every hypothesis discharged
by computation. -/
theorem resolveChatroom_cascade_witness :
    resolveChatroom twoRoomState "pump" = .ok (twoRoomState, "Pump Fun") :=
  resolveChatroom_cascade.2.2.1 twoRoomState "pump" "Pump Fun"
    (by decide) (by decide) (by decide)
